import Mathlib

/-!
Shallow embedding and verification of the C64 memory subsystem
(`src/c64/memory.cpp` of emudore64): dual 64KB RAM/ROM images, the
LORAM/HIRAM/CHAREN bank latch, peripheral register dispatch, the VIC
address view and the boot-time ROM/RAM patch routines.

The memory header (`memory.h`) and the ROM byte blobs (`c64rom.h`,
`customrom.h`) are not part of the sources; the constants below are
modelled from the spec (standard C64 layout the spec describes) and the
blobs are carried as opaque byte functions inside a `Roms` record.

Machine integers: addresses and byte values are `Nat`; uint16 wrap-around
is written as `% kMemSize`, uint8 truncation as `% 256` exactly where the
C code performs an implicit conversion.
-/

set_option maxRecDepth 8000

/-- Bank assignment values, mirroring the kBankCfg enum of the memory header. -/
inductive BankCfg where
  | kROM
  | kRAM
  | kIO
deriving DecidableEq, Repr

export BankCfg (kROM kRAM kIO)

/-- Modelled from the spec: the named constants of the missing memory header
(`memory.h`).  Values follow the fixed C64 address layout the spec
describes (zero-page configuration byte, the four peripheral register
windows inside the CHAREN region 0xD000-0xDFFF, the BASIC/KERNAL ROM
regions and the three latch bits).  Only these are used by `memory.cpp`. -/
def kMemSize : Nat := 65536

def kBaseAddrBasic : Nat := 0xa000

def kBaseAddrChars : Nat := 0xd000

def kBaseAddrKernal : Nat := 0xe000

def kAddrZeroPage : Nat := 0x0000

def kAddrVicFirstPage : Nat := 0xd000

def kAddrVicLastPage : Nat := 0xd300

def kAddrCIA1Page : Nat := 0xdc00

def kAddrCIA2Page : Nat := 0xdd00

def kAddrSIDPage : Nat := 0xd400

def kAddrBasicFirstPage : Nat := 0xa000

def kAddrBasicLastPage : Nat := 0xbf00

def kAddrKernalFirstPage : Nat := 0xe000

def kAddrKernalLastPage : Nat := 0xff00

def kAddrDataDirection : Nat := 0x0000

def kAddrMemoryLayout : Nat := 0x0001

def kLORAM : Nat := 1

def kHIRAM : Nat := 2

def kCHAREN : Nat := 4

def kBankBasic : Nat := 3

def kBankCharen : Nat := 5

def kBankKernal : Nat := 6

/-- Modelled from the spec: a peripheral exposes `read_register` and
`write_register` (and, for CIA2, the VIC base address provider).  The
register read view is an opaque function; writes are recorded so that
forwarding of a write can be observed. -/
structure Peripheral where
  regs : Nat → Nat
  writes : List (Nat × Nat)
  vic_base_address : Nat

def Peripheral.read_register (p : Peripheral) (a : Nat) : Nat := p.regs a

def Peripheral.write_register (p : Peripheral) (a v : Nat) : Peripheral :=
  { p with writes := (a, v) :: p.writes }

/-- Modelled from the spec: the fixed byte blobs supplied by the missing
headers `c64rom.h` (BASIC, character generator and KERNAL ROM images) and
`customrom.h` (the micromon monitor image and the `paku_prg` payload whose
first two bytes little-endian-encode its load address). -/
structure Roms where
  basicRomC64 : Nat → Fin 256
  charRomC64 : Nat → Fin 256
  kernalRomC64 : Nat → Fin 256
  micromon : Nat → Fin 256
  paku_prg : Nat → Fin 256
  paku_prg_size : Nat

/-- The state of the `Memory` class: the two 64KB images, the seven-slot
bank assignment array, the four borrowed peripherals and the fixed blobs. -/
@[ext]
structure Memory where
  roms : Roms
  mem_ram_ : Nat → Nat
  mem_rom_ : Nat → Nat
  banks_ : Nat → BankCfg
  vic_ : Peripheral
  cia1_ : Peripheral
  cia2_ : Peripheral
  sid_ : Peripheral

/-- A single store `f[a] = v` into a byte image. -/
def updMem {α : Type} (f : Nat → α) (a : Nat) (v : α) : Nat → α :=
  fun x => if x = a then v else f x

/-- The copy loops of `memory.cpp`: writes `n` bytes, byte `k` going to
destination index `(dstBase + k) % kMemSize` (uint16 wrap of the running
destination pointer) with value `src (srcOff + k)`. -/
def copyBytes (src : Nat → Fin 256) (srcOff dstBase n : Nat) (f : Nat → Nat) : Nat → Nat :=
  match n with
  | 0 => f
  | Nat.succ k =>
      updMem (copyBytes src srcOff dstBase k f) ((dstBase + k) % kMemSize) (src (srcOff + k)).val

/-- A straight-line sequence of byte stores, applied in list order. -/
def writeSeq (l : List (Nat × Nat)) (f : Nat → Nat) : Nat → Nat :=
  match l with
  | [] => f
  | p :: rest => writeSeq rest (updMem f p.1 p.2)

/-- The byte stores of `Memory::patch_roms`, in program order: the two
keyboard table remaps at 0xEB81/0xEBC2 and the DOS_PATCH hooks at the
KERNAL load (0xF4C4) and save (0xF605) routines. -/
def patchRomWrites : List (Nat × Nat) :=
  [ (0xEB81 + 46, 0x5B), (0xEB81 + 49, 0x5D), (0xEB81 + 50, 0x27), (0xEB81 + 45, 0x3B),
    (0xEBC2 + 59, 0x40), (0xEBC2 + 19, 0x5E), (0xEBC2 + 24, 0x26), (0xEBC2 + 27, 0x2A),
    (0xEBC2 + 32, 0x28), (0xEBC2 + 35, 0x29), (0xEBC2 + 50, 0x22), (0xEBC2 + 45, 0x3A),
    (0xEBC2 + 53, 0x2B),
    (0xF4C4, 0xA9), (0xF4C5, 0x04), (0xF4C6, 0x8D), (0xF4C7, 0x02), (0xF4C8, 0x00),
    (0xF4C9, 0xA5), (0xF4CA, 0x90), (0xF4CB, 0x4A), (0xF4CC, 0x4A), (0xF4CD, 0xB0),
    (0xF4CE, 0x61), (0xF4CF, 0x20), (0xF4D0, 0xD2), (0xF4D1, 0xF5), (0xF4D2, 0x18),
    (0xF4D3, 0xA6), (0xF4D4, 0xAE), (0xF4D5, 0xA4), (0xF4D6, 0xAF), (0xF4D7, 0x60),
    (0xF605, 0xA9), (0xF606, 0x05), (0xF607, 0x8D), (0xF608, 0x02), (0xF609, 0x00),
    (0xF60A, 0x18), (0xF60B, 0x60) ]

/-- `Memory::patch_roms` as a transformer of the ROM image. -/
def patch_roms (f : Nat → Nat) : Nat → Nat := writeSeq patchRomWrites f

/-- The ROM (re)load steps of `Memory::setup_memory_banks`: copy the BASIC,
character and KERNAL images to their fixed bases, then apply `patch_roms`. -/
def romPass (r : Roms) (f : Nat → Nat) : Nat → Nat :=
  patch_roms (copyBytes r.kernalRomC64 0 kBaseAddrKernal 8192
    (copyBytes r.charRomC64 0 kBaseAddrChars 4096
      (copyBytes r.basicRomC64 0 kBaseAddrBasic 8192 f)))

/-- The payload load address `(paku_prg[1] << 8) + paku_prg[0]`. -/
def pakuLoadAddr (r : Roms) : Nat := ((r.paku_prg 1).val <<< 8) + (r.paku_prg 0).val

/-- `Memory::patch_ram` (with ML_MON_9000 and the payload injection):
copies micromon bytes 2..4224 to 0x9000.., points the BRK vector at it,
copies the payload to its encoded load address (the running uint16
destination pointer wraps) and pokes the top-of-program pointer at
0x2D/0x2E with `0x0801 + sz-2` (computed in int arithmetic, stored as
uint8 bytes). -/
def patch_ram (m : Memory) : Memory :=
  let ram1 := copyBytes m.roms.micromon 2 0x9000 4223 m.mem_ram_
  let ram2 := updMem ram1 0x0316 0x00
  let ram3 := updMem ram2 0x0317 0x90
  let sz := m.roms.paku_prg_size
  let ram4 := copyBytes m.roms.paku_prg 2 (pakuLoadAddr m.roms) (sz - 2) ram3
  let ram5 := updMem ram4 0x2D ((0x0801 + sz - 2) % 256)
  let ram6 := updMem ram5 0x2E (((0x0801 + sz - 2) >>> 8) % 256)
  { m with mem_ram_ := ram6 }

/-- `Memory::write_byte_no_io`. -/
def write_byte_no_io (m : Memory) (addr v : Nat) : Memory :=
  { m with mem_ram_ := updMem m.mem_ram_ addr v }

/-- `Memory::read_byte_no_io`. -/
def read_byte_no_io (m : Memory) (addr : Nat) : Nat := m.mem_ram_ addr

/-- `Memory::setup_memory_banks`. -/
def setup_memory_banks (m : Memory) (v : Nat) : Memory :=
  let hiram : Bool := (v &&& kHIRAM) != 0
  let loram : Bool := (v &&& kLORAM) != 0
  let charen : Bool := (v &&& kCHAREN) != 0
  let banks0 : Nat → BankCfg := fun _ => kRAM
  let rom4 := romPass m.roms m.mem_rom_
  let banks1 := if hiram then updMem banks0 kBankKernal kROM else banks0
  let banks2 := if loram && hiram then updMem banks1 kBankBasic kROM else banks1
  let banks3 :=
    if charen && (loram || hiram) then updMem banks2 kBankCharen kIO
    else if charen && !loram && !hiram then updMem banks2 kBankCharen kRAM
    else updMem banks2 kBankCharen kROM
  write_byte_no_io { m with mem_rom_ := rom4, banks_ := banks3 } kAddrMemoryLayout v

/-- `Memory::write_byte`. -/
def write_byte (m : Memory) (addr v : Nat) : Memory :=
  let page := addr &&& 0xff00
  if page = kAddrZeroPage then
    if addr = kAddrMemoryLayout then setup_memory_banks m v
    else { m with mem_ram_ := updMem m.mem_ram_ addr v }
  else if kAddrVicFirstPage ≤ page ∧ page ≤ kAddrVicLastPage then
    if m.banks_ kBankCharen = kIO then { m with vic_ := m.vic_.write_register (addr &&& 0x7f) v }
    else { m with mem_ram_ := updMem m.mem_ram_ addr v }
  else if page = kAddrCIA1Page then
    if m.banks_ kBankCharen = kIO then { m with cia1_ := m.cia1_.write_register (addr &&& 0x0f) v }
    else { m with mem_ram_ := updMem m.mem_ram_ addr v }
  else if page = kAddrCIA2Page then
    if m.banks_ kBankCharen = kIO then { m with cia2_ := m.cia2_.write_register (addr &&& 0x0f) v }
    else { m with mem_ram_ := updMem m.mem_ram_ addr v }
  else if page = kAddrSIDPage then
    if m.banks_ kBankCharen = kIO then { m with sid_ := m.sid_.write_register (addr &&& 0xff) v }
    else { m with mem_ram_ := updMem m.mem_ram_ addr v }
  else
    let m1 : Memory := { m with mem_ram_ := updMem m.mem_ram_ addr v }
    if addr = 313 ∧ v = 255 then patch_ram m1 else m1

/-- `Memory::read_byte`. -/
def read_byte (m : Memory) (addr : Nat) : Nat :=
  let page := addr &&& 0xff00
  if kAddrVicFirstPage ≤ page ∧ page ≤ kAddrVicLastPage then
    if m.banks_ kBankCharen = kIO then m.vic_.read_register (addr &&& 0x7f)
    else if m.banks_ kBankCharen = kROM then m.mem_rom_ addr
    else m.mem_ram_ addr
  else if page = kAddrCIA1Page then
    if m.banks_ kBankCharen = kIO then m.cia1_.read_register (addr &&& 0x0f)
    else m.mem_ram_ addr
  else if page = kAddrCIA2Page then
    if m.banks_ kBankCharen = kIO then m.cia2_.read_register (addr &&& 0x0f)
    else m.mem_ram_ addr
  else if kAddrBasicFirstPage ≤ page ∧ page ≤ kAddrBasicLastPage then
    if m.banks_ kBankBasic = kROM then m.mem_rom_ addr else m.mem_ram_ addr
  else if kAddrKernalFirstPage ≤ page ∧ page ≤ kAddrKernalLastPage then
    if m.banks_ kBankKernal = kROM then m.mem_rom_ addr else m.mem_ram_ addr
  else m.mem_ram_ addr

/-- `Memory::read_word`: two byte reads, little endian, second address is
`addr+1` as uint16. -/
def read_word (m : Memory) (addr : Nat) : Nat :=
  read_byte m addr ||| (read_byte m ((addr + 1) % kMemSize)) <<< 8

/-- `Memory::read_word_no_io`. -/
def read_word_no_io (m : Memory) (addr : Nat) : Nat :=
  read_byte_no_io m addr ||| (read_byte_no_io m ((addr + 1) % kMemSize)) <<< 8

/-- `Memory::write_word`. -/
def write_word (m : Memory) (addr v : Nat) : Memory :=
  write_byte (write_byte m addr (v % 256)) ((addr + 1) % kMemSize) ((v >>> 8) % 256)

/-- `Memory::write_word_no_io`. -/
def write_word_no_io (m : Memory) (addr v : Nat) : Memory :=
  write_byte_no_io (write_byte_no_io m addr (v % 256)) ((addr + 1) % kMemSize) ((v >>> 8) % 256)

/-- `Memory::vic_read_byte`: 14-bit relative address plus the CIA2-provided
base, as uint16; two fixed 4KB windows resolve to the character ROM area. -/
def vic_read_byte (m : Memory) (addr : Nat) : Nat :=
  let vic_addr := (m.cia2_.vic_base_address + (addr &&& 0x3fff)) % kMemSize
  if (0x1000 ≤ vic_addr ∧ vic_addr < 0x2000) ∨ (0x9000 ≤ vic_addr ∧ vic_addr < 0xa000) then
    m.mem_rom_ (kBaseAddrChars + (vic_addr &&& 0xfff))
  else read_byte_no_io m vic_addr

/-- `Memory::Memory`: zeroed buffers, the 0x00/0xFF power-on RAM pattern,
bank setup with all three latch bits set, data direction byte. -/
def Memory.init (r : Roms) (vic cia1 cia2 sid : Peripheral) : Memory :=
  let ram0 : Nat → Nat := fun i => if (i >>> 1) <<< 1 = i then 0 else 0xFF
  let m0 : Memory :=
    { roms := r, mem_ram_ := ram0, mem_rom_ := fun _ => 0,
      banks_ := fun _ => kRAM, vic_ := vic, cia1_ := cia1, cia2_ := cia2, sid_ := sid }
  let m1 := setup_memory_banks m0 (kLORAM ||| kHIRAM ||| kCHAREN)
  write_byte_no_io m1 kAddrDataDirection 0x2f

/-- Machine states reachable from construction through the public mutating
entry points (plus an external CIA2 VIC-base change). -/
inductive Reach (r : Roms) : Memory → Prop where
  | init : ∀ vic cia1 cia2 sid, Reach r (Memory.init r vic cia1 cia2 sid)
  | wb : ∀ m a v, Reach r m → Reach r (write_byte m a v)
  | wbni : ∀ m a v, Reach r m → Reach r (write_byte_no_io m a v)
  | ww : ∀ m a v, Reach r m → Reach r (write_word m a v)
  | wwni : ∀ m a v, Reach r m → Reach r (write_word_no_io m a v)
  | vicbase : ∀ m nb, Reach r m →
      Reach r { m with cia2_ := { m.cia2_ with vic_base_address := nb } }

/-- Address pages claimed by the VIC register window. -/
def inVicPage (addr : Nat) : Prop :=
  kAddrVicFirstPage ≤ addr &&& 0xff00 ∧ addr &&& 0xff00 ≤ kAddrVicLastPage

/-- Address page claimed by CIA1. -/
def inCIA1Page (addr : Nat) : Prop := addr &&& 0xff00 = kAddrCIA1Page

/-- Address page claimed by CIA2. -/
def inCIA2Page (addr : Nat) : Prop := addr &&& 0xff00 = kAddrCIA2Page

/-- Address page claimed by the SID. -/
def inSIDPage (addr : Nat) : Prop := addr &&& 0xff00 = kAddrSIDPage

/-- The address is currently dispatched to a peripheral register window:
the CHAREN slot resolves to the I-O window and the page is one of the four
peripheral pages. -/
def ioDispatched (m : Memory) (addr : Nat) : Prop :=
  m.banks_ kBankCharen = kIO ∧
    (inVicPage addr ∨ inCIA1Page addr ∨ inCIA2Page addr ∨ inSIDPage addr)

/-- The ROM regions rewritten by `romPass`. -/
def inRomRegions (x : Nat) : Prop :=
  (kBaseAddrBasic ≤ x ∧ x < kBaseAddrBasic + 8192) ∨
  (kBaseAddrChars ≤ x ∧ x < kBaseAddrChars + 4096) ∨
  (kBaseAddrKernal ≤ x ∧ x < kBaseAddrKernal + 8192)

/-- The character generator area of the ROM image holds the character ROM
blob. -/
def charIntact (r : Roms) (m : Memory) : Prop :=
  ∀ o, o < 4096 → m.mem_rom_ (kBaseAddrChars + o) = (r.charRomC64 o).val

/-- Invariant carried by every reachable state. -/
def MemInv (r : Roms) (m : Memory) : Prop := m.roms = r ∧ charIntact r m

instance (addr : Nat) : Decidable (inVicPage addr) := by
  unfold inVicPage; exact inferInstance

instance (addr : Nat) : Decidable (inCIA1Page addr) := by
  unfold inCIA1Page; exact inferInstance

instance (addr : Nat) : Decidable (inCIA2Page addr) := by
  unfold inCIA2Page; exact inferInstance

instance (addr : Nat) : Decidable (inSIDPage addr) := by
  unfold inSIDPage; exact inferInstance

instance (m : Memory) (addr : Nat) : Decidable (ioDispatched m addr) := by
  unfold ioDispatched; exact inferInstance

instance (x : Nat) : Decidable (inRomRegions x) := by
  unfold inRomRegions; exact inferInstance

/-- A bounds-checked RAM or ROM image read: the C++ side indexes a fixed
65536-byte buffer, so an index past `kMemSize` would be out of bounds. -/
def ramGetChk (f : Nat → Nat) (a : Nat) : Option Nat :=
  if a < kMemSize then some (f a) else none

/-- A bounds-checked RAM or ROM image store. -/
def ramSetChk (f : Nat → Nat) (a v : Nat) : Option (Nat → Nat) :=
  if a < kMemSize then some (updMem f a v) else none

/-- Bounds-checked form of `copyBytes`. -/
def copyBytesChk (src : Nat → Fin 256) (srcOff dstBase n : Nat) (f : Nat → Nat) :
    Option (Nat → Nat) :=
  match n with
  | 0 => some f
  | Nat.succ k => do
      let g ← copyBytesChk src srcOff dstBase k f
      ramSetChk g ((dstBase + k) % kMemSize) (src (srcOff + k)).val

/-- Bounds-checked form of `writeSeq`. -/
def writeSeqChk (l : List (Nat × Nat)) (f : Nat → Nat) : Option (Nat → Nat) :=
  match l with
  | [] => some f
  | p :: rest => do
      let g ← ramSetChk f p.1 p.2
      writeSeqChk rest g

/-- Bounds-checked form of `patch_roms`. -/
def patch_romsChk (f : Nat → Nat) : Option (Nat → Nat) := writeSeqChk patchRomWrites f

/-- Bounds-checked form of `romPass`. -/
def romPassChk (r : Roms) (f : Nat → Nat) : Option (Nat → Nat) := do
  let rom1 ← copyBytesChk r.basicRomC64 0 kBaseAddrBasic 8192 f
  let rom2 ← copyBytesChk r.charRomC64 0 kBaseAddrChars 4096 rom1
  let rom3 ← copyBytesChk r.kernalRomC64 0 kBaseAddrKernal 8192 rom2
  patch_romsChk rom3

/-- Bounds-checked form of `patch_ram`. -/
def patch_ramChk (m : Memory) : Option Memory := do
  let ram1 ← copyBytesChk m.roms.micromon 2 0x9000 4223 m.mem_ram_
  let ram2 ← ramSetChk ram1 0x0316 0x00
  let ram3 ← ramSetChk ram2 0x0317 0x90
  let sz := m.roms.paku_prg_size
  let ram4 ← copyBytesChk m.roms.paku_prg 2 (pakuLoadAddr m.roms) (sz - 2) ram3
  let ram5 ← ramSetChk ram4 0x2D ((0x0801 + sz - 2) % 256)
  let ram6 ← ramSetChk ram5 0x2E (((0x0801 + sz - 2) >>> 8) % 256)
  pure { m with mem_ram_ := ram6 }

/-- Bounds-checked form of `write_byte_no_io`. -/
def write_byte_no_ioChk (m : Memory) (addr v : Nat) : Option Memory := do
  let f ← ramSetChk m.mem_ram_ addr v
  pure { m with mem_ram_ := f }

/-- Bounds-checked form of `read_byte_no_io`. -/
def read_byte_no_ioChk (m : Memory) (addr : Nat) : Option Nat :=
  ramGetChk m.mem_ram_ addr

/-- Bounds-checked form of `setup_memory_banks`. -/
def setup_memory_banksChk (m : Memory) (v : Nat) : Option Memory := do
  let hiram : Bool := (v &&& kHIRAM) != 0
  let loram : Bool := (v &&& kLORAM) != 0
  let charen : Bool := (v &&& kCHAREN) != 0
  let banks0 : Nat → BankCfg := fun _ => kRAM
  let rom4 ← romPassChk m.roms m.mem_rom_
  let banks1 := if hiram then updMem banks0 kBankKernal kROM else banks0
  let banks2 := if loram && hiram then updMem banks1 kBankBasic kROM else banks1
  let banks3 :=
    if charen && (loram || hiram) then updMem banks2 kBankCharen kIO
    else if charen && !loram && !hiram then updMem banks2 kBankCharen kRAM
    else updMem banks2 kBankCharen kROM
  write_byte_no_ioChk { m with mem_rom_ := rom4, banks_ := banks3 } kAddrMemoryLayout v

/-- Bounds-checked form of `write_byte`. -/
def write_byteChk (m : Memory) (addr v : Nat) : Option Memory :=
  let page := addr &&& 0xff00
  if page = kAddrZeroPage then
    if addr = kAddrMemoryLayout then setup_memory_banksChk m v
    else write_byte_no_ioChk m addr v
  else if kAddrVicFirstPage ≤ page ∧ page ≤ kAddrVicLastPage then
    if m.banks_ kBankCharen = kIO then
      some { m with vic_ := m.vic_.write_register (addr &&& 0x7f) v }
    else write_byte_no_ioChk m addr v
  else if page = kAddrCIA1Page then
    if m.banks_ kBankCharen = kIO then
      some { m with cia1_ := m.cia1_.write_register (addr &&& 0x0f) v }
    else write_byte_no_ioChk m addr v
  else if page = kAddrCIA2Page then
    if m.banks_ kBankCharen = kIO then
      some { m with cia2_ := m.cia2_.write_register (addr &&& 0x0f) v }
    else write_byte_no_ioChk m addr v
  else if page = kAddrSIDPage then
    if m.banks_ kBankCharen = kIO then
      some { m with sid_ := m.sid_.write_register (addr &&& 0xff) v }
    else write_byte_no_ioChk m addr v
  else do
    let m1 ← write_byte_no_ioChk m addr v
    if addr = 313 ∧ v = 255 then patch_ramChk m1 else pure m1

/-- Bounds-checked form of `read_byte`. -/
def read_byteChk (m : Memory) (addr : Nat) : Option Nat :=
  let page := addr &&& 0xff00
  if kAddrVicFirstPage ≤ page ∧ page ≤ kAddrVicLastPage then
    if m.banks_ kBankCharen = kIO then some (m.vic_.read_register (addr &&& 0x7f))
    else if m.banks_ kBankCharen = kROM then ramGetChk m.mem_rom_ addr
    else ramGetChk m.mem_ram_ addr
  else if page = kAddrCIA1Page then
    if m.banks_ kBankCharen = kIO then some (m.cia1_.read_register (addr &&& 0x0f))
    else ramGetChk m.mem_ram_ addr
  else if page = kAddrCIA2Page then
    if m.banks_ kBankCharen = kIO then some (m.cia2_.read_register (addr &&& 0x0f))
    else ramGetChk m.mem_ram_ addr
  else if kAddrBasicFirstPage ≤ page ∧ page ≤ kAddrBasicLastPage then
    if m.banks_ kBankBasic = kROM then ramGetChk m.mem_rom_ addr
    else ramGetChk m.mem_ram_ addr
  else if kAddrKernalFirstPage ≤ page ∧ page ≤ kAddrKernalLastPage then
    if m.banks_ kBankKernal = kROM then ramGetChk m.mem_rom_ addr
    else ramGetChk m.mem_ram_ addr
  else ramGetChk m.mem_ram_ addr

/-- Bounds-checked form of `read_word`. -/
def read_wordChk (m : Memory) (addr : Nat) : Option Nat := do
  let lo ← read_byteChk m addr
  let hi ← read_byteChk m ((addr + 1) % kMemSize)
  pure (lo ||| hi <<< 8)

/-- Bounds-checked form of `read_word_no_io`. -/
def read_word_no_ioChk (m : Memory) (addr : Nat) : Option Nat := do
  let lo ← read_byte_no_ioChk m addr
  let hi ← read_byte_no_ioChk m ((addr + 1) % kMemSize)
  pure (lo ||| hi <<< 8)

/-- Bounds-checked form of `write_word`. -/
def write_wordChk (m : Memory) (addr v : Nat) : Option Memory := do
  let m1 ← write_byteChk m addr (v % 256)
  write_byteChk m1 ((addr + 1) % kMemSize) ((v >>> 8) % 256)

/-- Bounds-checked form of `write_word_no_io`. -/
def write_word_no_ioChk (m : Memory) (addr v : Nat) : Option Memory := do
  let m1 ← write_byte_no_ioChk m addr (v % 256)
  write_byte_no_ioChk m1 ((addr + 1) % kMemSize) ((v >>> 8) % 256)

/-- Sample peripheral used to instantiate theorems on concrete machines. -/
def samplePeriph : Peripheral := { regs := fun _ => 0x99, writes := [], vic_base_address := 0 }

/-- Sample blobs: all-zero ROM images and an empty payload. -/
def sampleRoms : Roms :=
  { basicRomC64 := fun _ => 0, charRomC64 := fun _ => 0, kernalRomC64 := fun _ => 0,
    micromon := fun _ => 0, paku_prg := fun _ => 0, paku_prg_size := 2 }

/-- A concrete machine built by the constructor on the sample blobs. -/
def M0 : Memory := Memory.init sampleRoms samplePeriph samplePeriph samplePeriph samplePeriph

/-- A concrete literal machine with every bank slot on RAM. -/
def mTest : Memory :=
  { roms := sampleRoms, mem_ram_ := fun _ => 0x11, mem_rom_ := fun _ => 0x22,
    banks_ := fun _ => kRAM, vic_ := samplePeriph, cia1_ := samplePeriph,
    cia2_ := samplePeriph, sid_ := samplePeriph }

/-- A concrete literal machine with every bank slot on the I-O window. -/
def mIO : Memory :=
  { roms := sampleRoms, mem_ram_ := fun _ => 0x11, mem_rom_ := fun _ => 0x22,
    banks_ := fun _ => kIO, vic_ := samplePeriph, cia1_ := samplePeriph,
    cia2_ := samplePeriph, sid_ := samplePeriph }

/-- A concrete literal machine with every bank slot on ROM. -/
def mROM : Memory :=
  { roms := sampleRoms, mem_ram_ := fun _ => 0x11, mem_rom_ := fun _ => 0x22,
    banks_ := fun _ => kROM, vic_ := samplePeriph, cia1_ := samplePeriph,
    cia2_ := samplePeriph, sid_ := samplePeriph }

/-- Blobs with a three-byte payload: load address 0x0801, one program byte
0x42. -/
def rCex : Roms :=
  { basicRomC64 := fun _ => 0, charRomC64 := fun _ => 0, kernalRomC64 := fun _ => 0,
    micromon := fun _ => 0,
    paku_prg := fun i => if i = 0 then 1 else if i = 1 then 8 else 0x42,
    paku_prg_size := 3 }

/-- The machine built by the constructor on the `rCex` blobs. -/
def MCex : Memory := Memory.init rCex samplePeriph samplePeriph samplePeriph samplePeriph

lemma updMem_self {α : Type} (f : Nat → α) (a : Nat) (v : α) : updMem f a v a = v := by
  simp [updMem]

lemma updMem_ne {α : Type} (f : Nat → α) (a : Nat) (v : α) {x : Nat} (h : x ≠ a) :
    updMem f a v x = f x := by
  simp [updMem, h]

lemma updMem_idem {α : Type} (f : Nat → α) (a : Nat) (v : α) :
    updMem (updMem f a v) a v = updMem f a v := by
  funext x
  by_cases h : x = a <;> simp [updMem, h]

lemma updMem_congr {α : Type} {f g : Nat → α} (a : Nat) (v : α) {x : Nat} (h : f x = g x) :
    updMem f a v x = updMem g a v x := by
  by_cases hx : x = a <;> simp [updMem, hx, h]

lemma copyBytes_out (src : Nat → Fin 256) (srcOff dstBase : Nat) {n : Nat} (f : Nat → Nat)
    {x : Nat} (h : ∀ i, i < n → (dstBase + i) % kMemSize ≠ x) :
    copyBytes src srcOff dstBase n f x = f x := by
  induction n with
  | zero => rfl
  | succ k ih =>
    rw [copyBytes, updMem_ne _ _ _ (fun hx => h k (by omega) hx.symm)]
    exact ih fun i hi => h i (by omega)

lemma copyBytes_in (src : Nat → Fin 256) (srcOff dstBase : Nat) {n i : Nat} (f : Nat → Nat)
    (hn : n ≤ kMemSize) (hi : i < n) :
    copyBytes src srcOff dstBase n f ((dstBase + i) % kMemSize) = (src (srcOff + i)).val := by
  induction n with
  | zero => omega
  | succ k ih =>
    by_cases hik : i = k
    · subst hik
      rw [copyBytes, updMem_self]
    · have hne : (dstBase + i) % kMemSize ≠ (dstBase + k) % kMemSize := by
        simp only [kMemSize] at hn ⊢
        omega
      rw [copyBytes, updMem_ne _ _ _ hne]
      exact ih (by omega) (by omega)

lemma copyBytes_congr (src : Nat → Fin 256) (srcOff dstBase n : Nat) {f g : Nat → Nat}
    {x : Nat} (h : f x = g x) :
    copyBytes src srcOff dstBase n f x = copyBytes src srcOff dstBase n g x := by
  induction n with
  | zero => exact h
  | succ k ih => rw [copyBytes, copyBytes]; exact updMem_congr _ _ ih

lemma writeSeq_out (l : List (Nat × Nat)) (f : Nat → Nat) {x : Nat}
    (h : ∀ p ∈ l, p.1 ≠ x) :
    writeSeq l f x = f x := by
  induction l generalizing f with
  | nil => rfl
  | cons p rest ih =>
    rw [writeSeq, ih _ fun q hq => h q (List.mem_cons_of_mem p hq),
      updMem_ne _ _ _ fun hx => h p (List.mem_cons_self p rest) hx.symm]

lemma writeSeq_congr (l : List (Nat × Nat)) {f g : Nat → Nat} {x : Nat} (h : f x = g x) :
    writeSeq l f x = writeSeq l g x := by
  induction l generalizing f g with
  | nil => exact h
  | cons p rest ih => rw [writeSeq, writeSeq]; exact ih (updMem_congr _ _ h)

lemma patchRomWrites_range : ∀ p ∈ patchRomWrites, 0xE000 ≤ p.1 ∧ p.1 < kMemSize := by
  decide

/-- Outside the three ROM regions, `romPass` changes nothing. -/
lemma romPass_out (r : Roms) (f : Nat → Nat) {x : Nat} (hx : ¬ inRomRegions x) :
    romPass r f x = f x := by
  simp only [inRomRegions, kBaseAddrBasic, kBaseAddrChars, kBaseAddrKernal] at hx
  push_neg at hx
  unfold romPass patch_roms
  rw [writeSeq_out _ _ fun p hp => by
        have := patchRomWrites_range p hp
        simp only [kMemSize] at this
        omega,
      copyBytes_out _ _ _ _ fun i hi => by
        simp only [kMemSize, kBaseAddrKernal]; omega,
      copyBytes_out _ _ _ _ fun i hi => by
        simp only [kMemSize, kBaseAddrChars]; omega,
      copyBytes_out _ _ _ _ fun i hi => by
        simp only [kMemSize, kBaseAddrBasic]; omega]

/-- Inside the three ROM regions, `romPass` does not depend on the previous
ROM content. -/
lemma romPass_indep (r : Roms) (f g : Nat → Nat) {x : Nat} (hx : inRomRegions x) :
    romPass r f x = romPass r g x := by
  unfold romPass patch_roms
  apply writeSeq_congr
  rcases hx with hb | hc | hk
  · simp only [kBaseAddrBasic] at hb
    apply copyBytes_congr
    apply copyBytes_congr
    have hxeq : x = (kBaseAddrBasic + (x - kBaseAddrBasic)) % kMemSize := by
      simp only [kBaseAddrBasic, kMemSize]; omega
    rw [hxeq, copyBytes_in _ _ _ _ (by simp [kMemSize]) (by simp only [kBaseAddrBasic]; omega),
      copyBytes_in _ _ _ _ (by simp [kMemSize]) (by simp only [kBaseAddrBasic]; omega)]
  · simp only [kBaseAddrChars] at hc
    apply copyBytes_congr
    have hxeq : x = (kBaseAddrChars + (x - kBaseAddrChars)) % kMemSize := by
      simp only [kBaseAddrChars, kMemSize]; omega
    rw [hxeq, copyBytes_in _ _ _ _ (by simp [kMemSize]) (by simp only [kBaseAddrChars]; omega),
      copyBytes_in _ _ _ _ (by simp [kMemSize]) (by simp only [kBaseAddrChars]; omega)]
  · simp only [kBaseAddrKernal] at hk
    have hxeq : x = (kBaseAddrKernal + (x - kBaseAddrKernal)) % kMemSize := by
      simp only [kBaseAddrKernal, kMemSize]; omega
    rw [hxeq, copyBytes_in _ _ _ _ (by simp [kMemSize]) (by simp only [kBaseAddrKernal]; omega),
      copyBytes_in _ _ _ _ (by simp [kMemSize]) (by simp only [kBaseAddrKernal]; omega)]

/-- Applying `romPass` twice equals applying it once. -/
lemma romPass_idem (r : Roms) (f : Nat → Nat) : romPass r (romPass r f) = romPass r f := by
  funext x
  by_cases hx : inRomRegions x
  · exact romPass_indep r _ f hx
  · rw [romPass_out r _ hx, romPass_out r f hx]

/-- The character generator area of the ROM image after `romPass` holds the
character ROM blob. -/
lemma romPass_char (r : Roms) (f : Nat → Nat) {o : Nat} (ho : o < 4096) :
    romPass r f (kBaseAddrChars + o) = (r.charRomC64 o).val := by
  unfold romPass patch_roms
  rw [writeSeq_out _ _ fun p hp => by
        have := patchRomWrites_range p hp
        simp only [kMemSize, kBaseAddrChars] at this ⊢
        omega,
      copyBytes_out _ _ _ _ fun i hi => by
        simp only [kMemSize, kBaseAddrChars, kBaseAddrKernal]; omega]
  have hxeq : kBaseAddrChars + o = (kBaseAddrChars + o) % kMemSize := by
    simp only [kBaseAddrChars, kMemSize]; omega
  rw [hxeq, copyBytes_in _ _ _ _ (by simp [kMemSize]) ho]
  simp

lemma setup_roms (m : Memory) (v : Nat) : (setup_memory_banks m v).roms = m.roms := rfl

lemma setup_ram (m : Memory) (v : Nat) :
    (setup_memory_banks m v).mem_ram_ = updMem m.mem_ram_ kAddrMemoryLayout v := rfl

lemma setup_rom (m : Memory) (v : Nat) :
    (setup_memory_banks m v).mem_rom_ = romPass m.roms m.mem_rom_ := rfl

lemma setup_vic (m : Memory) (v : Nat) : (setup_memory_banks m v).vic_ = m.vic_ := rfl

lemma setup_cia1 (m : Memory) (v : Nat) : (setup_memory_banks m v).cia1_ = m.cia1_ := rfl

lemma setup_cia2 (m : Memory) (v : Nat) : (setup_memory_banks m v).cia2_ = m.cia2_ := rfl

lemma setup_sid (m : Memory) (v : Nat) : (setup_memory_banks m v).sid_ = m.sid_ := rfl

/-- The recomputed bank slots depend only on the latch byte. -/
lemma setup_banks_indep (m m' : Memory) (v : Nat) :
    (setup_memory_banks m v).banks_ = (setup_memory_banks m' v).banks_ := rfl

lemma setup_banks_kernal (m : Memory) (v : Nat) :
    (setup_memory_banks m v).banks_ kBankKernal =
      if v &&& kHIRAM ≠ 0 then kROM else kRAM := by
  by_cases hH : v &&& kHIRAM = 0 <;> by_cases hL : v &&& kLORAM = 0 <;>
    by_cases hC : v &&& kCHAREN = 0 <;>
    simp [setup_memory_banks, write_byte_no_io, updMem, hH, hL, hC,
      kBankKernal, kBankCharen, kBankBasic]

lemma setup_banks_basic (m : Memory) (v : Nat) :
    (setup_memory_banks m v).banks_ kBankBasic =
      if v &&& kLORAM ≠ 0 ∧ v &&& kHIRAM ≠ 0 then kROM else kRAM := by
  by_cases hH : v &&& kHIRAM = 0 <;> by_cases hL : v &&& kLORAM = 0 <;>
    by_cases hC : v &&& kCHAREN = 0 <;>
    simp [setup_memory_banks, write_byte_no_io, updMem, hH, hL, hC,
      kBankKernal, kBankCharen, kBankBasic]

lemma setup_banks_charen (m : Memory) (v : Nat) :
    (setup_memory_banks m v).banks_ kBankCharen =
      if v &&& kCHAREN ≠ 0 ∧ (v &&& kLORAM ≠ 0 ∨ v &&& kHIRAM ≠ 0) then kIO
      else if v &&& kCHAREN ≠ 0 then kRAM
      else kROM := by
  by_cases hH : v &&& kHIRAM = 0 <;> by_cases hL : v &&& kLORAM = 0 <;>
    by_cases hC : v &&& kCHAREN = 0 <;>
    simp [setup_memory_banks, write_byte_no_io, updMem, hH, hL, hC,
      kBankKernal, kBankCharen, kBankBasic]

lemma setup_charIntact (r : Roms) (m : Memory) (v : Nat) (hr : m.roms = r) :
    charIntact r (setup_memory_banks m v) := by
  intro o ho
  rw [setup_rom, hr, romPass_char r _ ho]

lemma patch_ram_roms (m : Memory) : (patch_ram m).roms = m.roms := rfl

lemma patch_ram_rom (m : Memory) : (patch_ram m).mem_rom_ = m.mem_rom_ := rfl

lemma write_byte_no_io_roms (m : Memory) (a v : Nat) :
    (write_byte_no_io m a v).roms = m.roms := rfl

lemma write_byte_no_io_rom (m : Memory) (a v : Nat) :
    (write_byte_no_io m a v).mem_rom_ = m.mem_rom_ := rfl

lemma memInv_setup (r : Roms) (m : Memory) (v : Nat) (h : MemInv r m) :
    MemInv r (setup_memory_banks m v) :=
  ⟨h.1, setup_charIntact r m v h.1⟩

lemma memInv_write_byte (r : Roms) (m : Memory) (a v : Nat) (h : MemInv r m) :
    MemInv r (write_byte m a v) := by
  simp only [write_byte]
  split_ifs with h1 h2 h3 h4 h5 h6 h7 h8 h9 h10
  · exact memInv_setup r m v h
  all_goals exact ⟨h.1, h.2⟩

lemma memInv_write_byte_no_io (r : Roms) (m : Memory) (a v : Nat) (h : MemInv r m) :
    MemInv r (write_byte_no_io m a v) :=
  ⟨h.1, h.2⟩

lemma memInv_write_word (r : Roms) (m : Memory) (a v : Nat) (h : MemInv r m) :
    MemInv r (write_word m a v) :=
  memInv_write_byte r _ _ _ (memInv_write_byte r _ _ _ h)

lemma memInv_init (r : Roms) (vic cia1 cia2 sid : Peripheral) :
    MemInv r (Memory.init r vic cia1 cia2 sid) := by
  exact memInv_write_byte_no_io r _ _ _ ⟨rfl, setup_charIntact r _ _ rfl⟩

lemma memInv_reach {r : Roms} {m : Memory} (h : Reach r m) : MemInv r m := by
  induction h with
  | init vic cia1 cia2 sid => exact memInv_init r vic cia1 cia2 sid
  | wb m a v _ ih => exact memInv_write_byte r m a v ih
  | wbni m a v _ ih => exact memInv_write_byte_no_io r m a v ih
  | ww m a v _ ih => exact memInv_write_word r m a v ih
  | wwni m a v _ ih =>
      exact memInv_write_byte_no_io r _ _ _ (memInv_write_byte_no_io r m _ _ ih)
  | vicbase m nb _ ih => exact ⟨ih.1, ih.2⟩

lemma write_byte_config (m : Memory) (v : Nat) :
    write_byte m kAddrMemoryLayout v = setup_memory_banks m v := by
  simp [write_byte, kAddrMemoryLayout, kAddrZeroPage]

/-- C1: for every 3-bit latch value passed to setup_memory_banks, the region
assignments follow the fixed rule table: KERNAL is ROM if HIRAM is set and
RAM otherwise; BASIC is ROM exactly when LORAM and HIRAM are both set, else
RAM; CHAREN is the I-O window if CHAREN is set and LORAM or HIRAM is set,
RAM if CHAREN is set with LORAM and HIRAM both clear, and ROM if CHAREN is
clear. -/
theorem setup_memory_banks_rule_table (m : Memory) (v : Nat) (hv : v < 8) :
    ((setup_memory_banks m v).banks_ kBankKernal =
      if v &&& kHIRAM ≠ 0 then kROM else kRAM)
    ∧ ((setup_memory_banks m v).banks_ kBankBasic =
      if v &&& kLORAM ≠ 0 ∧ v &&& kHIRAM ≠ 0 then kROM else kRAM)
    ∧ ((setup_memory_banks m v).banks_ kBankCharen =
      if v &&& kCHAREN ≠ 0 ∧ (v &&& kLORAM ≠ 0 ∨ v &&& kHIRAM ≠ 0) then kIO
      else if v &&& kCHAREN ≠ 0 then kRAM
      else kROM) :=
  ⟨setup_banks_kernal m v, setup_banks_basic m v, setup_banks_charen m v⟩

/-- Witness for C1 at latch value 6 (HIRAM and CHAREN set, LORAM clear). -/
theorem setup_memory_banks_rule_table_witness :
    (setup_memory_banks mTest 6).banks_ kBankKernal = kROM
    ∧ (setup_memory_banks mTest 6).banks_ kBankBasic = kRAM
    ∧ (setup_memory_banks mTest 6).banks_ kBankCharen = kIO := by
  obtain ⟨h1, h2, h3⟩ := setup_memory_banks_rule_table mTest 6 (by decide)
  exact ⟨by simpa using h1, by simpa using h2, by simpa using h3⟩

/-- C3: writing any byte value to the bank-configuration zero-page address
triggers reconfiguration: reading that address afterwards returns the
stored latch byte, and the three region assignments equal those the rule
table derives from the written value. -/
theorem write_config_byte_reconfigures (m : Memory) (v : Nat) (hv : v < 256) :
    read_byte (write_byte m kAddrMemoryLayout v) kAddrMemoryLayout = v
    ∧ ((write_byte m kAddrMemoryLayout v).banks_ kBankKernal =
      if v &&& kHIRAM ≠ 0 then kROM else kRAM)
    ∧ ((write_byte m kAddrMemoryLayout v).banks_ kBankBasic =
      if v &&& kLORAM ≠ 0 ∧ v &&& kHIRAM ≠ 0 then kROM else kRAM)
    ∧ ((write_byte m kAddrMemoryLayout v).banks_ kBankCharen =
      if v &&& kCHAREN ≠ 0 ∧ (v &&& kLORAM ≠ 0 ∨ v &&& kHIRAM ≠ 0) then kIO
      else if v &&& kCHAREN ≠ 0 then kRAM
      else kROM) := by
  rw [write_byte_config]
  refine ⟨?_, setup_banks_kernal m v, setup_banks_basic m v, setup_banks_charen m v⟩
  simp [read_byte, kAddrMemoryLayout, kAddrVicFirstPage, kAddrVicLastPage, kAddrCIA1Page,
    kAddrCIA2Page, kAddrBasicFirstPage, kAddrBasicLastPage, kAddrKernalFirstPage,
    kAddrKernalLastPage, setup_ram, updMem_self]

/-- Witness for C3 at value 7. -/
theorem write_config_byte_reconfigures_witness :
    read_byte (write_byte mTest kAddrMemoryLayout 7) kAddrMemoryLayout = 7
    ∧ (write_byte mTest kAddrMemoryLayout 7).banks_ kBankCharen = kIO := by
  obtain ⟨h1, _, _, h3⟩ := write_config_byte_reconfigures mTest 7 (by decide)
  refine ⟨h1, by simpa using h3⟩

/-- C7: recomputing the banks twice with the same latch byte leaves the whole
machine state (RAM image, ROM image, bank slots and peripherals) identical
to recomputing once, and every latch byte yields a defined RAM, ROM or I-O
assignment for every bank slot. -/
theorem setup_memory_banks_idempotent_total (m : Memory) (v : Nat) (hv : v < 256) :
    setup_memory_banks (setup_memory_banks m v) v = setup_memory_banks m v
    ∧ ∀ b, (setup_memory_banks m v).banks_ b = kRAM
        ∨ (setup_memory_banks m v).banks_ b = kROM
        ∨ (setup_memory_banks m v).banks_ b = kIO := by
  constructor
  · refine Memory.ext ?_ ?_ ?_ ?_ ?_ ?_ ?_ ?_
    · rfl
    · simp only [setup_ram]
      exact updMem_idem _ _ _
    · simp only [setup_rom, setup_roms]
      exact romPass_idem _ _
    · exact setup_banks_indep _ m v
    · rfl
    · rfl
    · rfl
    · rfl
  · intro b
    cases hb : (setup_memory_banks m v).banks_ b with
    | kRAM => exact Or.inl rfl
    | kROM => exact Or.inr (Or.inl rfl)
    | kIO => exact Or.inr (Or.inr rfl)

/-- Witness for C7 at latch value 7. -/
theorem setup_memory_banks_idempotent_total_witness :
    setup_memory_banks (setup_memory_banks mTest 7) 7 = setup_memory_banks mTest 7 :=
  (setup_memory_banks_idempotent_total mTest 7 (by decide)).1

/-- `patch_ram` leaves address 313 unchanged provided the payload injection
span avoids it (the micromon block, the BRK vector and the top-of-program
pointer never touch 313). -/
lemma patch_ram_ram313 (m : Memory)
    (hp : ∀ i, i < m.roms.paku_prg_size - 2 → (pakuLoadAddr m.roms + i) % kMemSize ≠ 313) :
    (patch_ram m).mem_ram_ 313 = m.mem_ram_ 313 := by
  simp only [patch_ram]
  rw [updMem_ne _ _ _ (by decide), updMem_ne _ _ _ (by decide),
    copyBytes_out _ _ _ _ hp,
    updMem_ne _ _ _ (by decide), updMem_ne _ _ _ (by decide),
    copyBytes_out _ _ _ _ (fun i hi => by simp only [kMemSize]; omega)]

/-- C2: for every address and value, in any machine state, if the write is
not the bank-configuration store and the address is not currently dispatched
to a peripheral register window, then the write lands in the RAM image and
a subsequent no-I-O read of the same address returns the written value
(including all writes to addresses that currently decode to ROM for reads).
The payload-blob hypothesis says the fixed program image does not overlay
address 313, the magic patch trigger cell. -/
theorem write_ram_reads_back (m : Memory) (a v : Nat)
    (ha : a < kMemSize)
    (hcfg : a ≠ kAddrMemoryLayout)
    (hio : ¬ ioDispatched m a)
    (hpaku : ∀ i, i < m.roms.paku_prg_size - 2 → (pakuLoadAddr m.roms + i) % kMemSize ≠ 313) :
    read_byte_no_io (write_byte m a v) a = v := by
  simp only [write_byte, read_byte_no_io]
  split_ifs with h1 h2 h3 h4 h5 h6 h7 h8 h9 h10
  · exact updMem_self _ _ _
  · exact absurd ⟨h3, Or.inl h2⟩ hio
  · exact updMem_self _ _ _
  · exact absurd ⟨h5, Or.inr (Or.inl h4)⟩ hio
  · exact updMem_self _ _ _
  · exact absurd ⟨h7, Or.inr (Or.inr (Or.inl h6))⟩ hio
  · exact updMem_self _ _ _
  · exact absurd ⟨h9, Or.inr (Or.inr (Or.inr h8))⟩ hio
  · exact updMem_self _ _ _
  · obtain ⟨rfl, rfl⟩ := h10
    rw [patch_ram_ram313]
    · exact updMem_self m.mem_ram_ 313 255
    · exact hpaku
  · exact updMem_self _ _ _

/-- Witness for C2: a write to a KERNAL-region address (which decodes to ROM
for reads on mTest with all slots on RAM it does not, so also check a plain
address) reads back. -/
theorem write_ram_reads_back_witness :
    read_byte_no_io (write_byte mTest 0xE123 0x42) 0xE123 = 0x42 :=
  write_ram_reads_back mTest 0xE123 0x42 (by decide) (by decide) (by decide)
    (fun i hi => absurd hi (Nat.not_lt_zero i))

/-- C9: a word access at 0xFFFF wraps: the second byte access happens at
address 0x0000, for the I-O-aware and the no-I-O variants alike; the write
stores the low byte at 0xFFFF and the high byte at 0x0000. -/
theorem word_wraparound (m : Memory) (v : Nat) (hv : v < kMemSize) :
    read_word m 0xFFFF = read_byte m 0xFFFF ||| read_byte m 0x0000 <<< 8
    ∧ read_word_no_io m 0xFFFF = read_byte_no_io m 0xFFFF ||| read_byte_no_io m 0x0000 <<< 8
    ∧ (write_word m 0xFFFF v).mem_ram_ 0xFFFF = v % 256
    ∧ (write_word m 0xFFFF v).mem_ram_ 0x0000 = v >>> 8
    ∧ (write_word_no_io m 0xFFFF v).mem_ram_ 0xFFFF = v % 256
    ∧ (write_word_no_io m 0xFFFF v).mem_ram_ 0x0000 = v >>> 8 := by
  have hdiv : v >>> 8 = v / 256 := by
    rw [Nat.shiftRight_eq_div_pow]
  have hs : v >>> 8 < 256 := by
    simp only [kMemSize] at hv
    omega
  have hp1 : (65535 : Nat) &&& 65280 = 65280 := by decide
  have hp2 : (0 : Nat) &&& 65280 = 0 := by decide
  refine ⟨?_, ?_, ?_, ?_, ?_, ?_⟩
  · simp [read_word, kMemSize]
  · simp [read_word_no_io, kMemSize]
  · simp [write_word, write_byte, kMemSize, kAddrZeroPage, kAddrMemoryLayout,
      kAddrVicFirstPage, kAddrVicLastPage, kAddrCIA1Page, kAddrCIA2Page, kAddrSIDPage,
      updMem, hp1, hp2]
  · simp [write_word, write_byte, kMemSize, kAddrZeroPage, kAddrMemoryLayout,
      kAddrVicFirstPage, kAddrVicLastPage, kAddrCIA1Page, kAddrCIA2Page, kAddrSIDPage,
      updMem, hp1, hp2, Nat.mod_eq_of_lt hs]
  · simp [write_word_no_io, write_byte_no_io, kMemSize, updMem]
  · simp [write_word_no_io, write_byte_no_io, kMemSize, updMem, Nat.mod_eq_of_lt hs]

/-- Witness for C9 at value 0xABCD. -/
theorem word_wraparound_witness :
    (write_word mTest 0xFFFF 0xABCD).mem_ram_ 0xFFFF = 0xCD
    ∧ (write_word mTest 0xFFFF 0xABCD).mem_ram_ 0 = 0xAB := by
  obtain ⟨-, -, h3, h4, -, -⟩ := word_wraparound mTest 0xABCD (by decide)
  exact ⟨by simpa using h3, by simpa using h4⟩

/-- C10: when the CHAREN slot resolves to ROM, read_byte returns the ROM
image byte exactly on the video-register pages of the CHAREN region; every
other address of the region (the CIA1, CIA2 and SID pages and the
unclaimed pages) reads the RAM image byte. -/
theorem charen_rom_window (m : Memory) (a : Nat)
    (hrom : m.banks_ kBankCharen = kROM)
    (hlo : kBaseAddrChars ≤ a &&& 0xff00)
    (hhi : a &&& 0xff00 ≤ 0xdf00) :
    read_byte m a = if a &&& 0xff00 ≤ kAddrVicLastPage then m.mem_rom_ a else m.mem_ram_ a := by
  simp only [kBaseAddrChars] at hlo
  simp only [read_byte, hrom, kAddrVicFirstPage, kAddrVicLastPage, kAddrCIA1Page,
    kAddrCIA2Page, kAddrBasicFirstPage, kAddrBasicLastPage, kAddrKernalFirstPage,
    kAddrKernalLastPage]
  split_ifs <;> first | rfl | (exfalso; omega) | simp_all

/-- Witness for C10 at the SID page with the CHAREN slot on ROM. -/
theorem charen_rom_window_witness :
    read_byte mROM 0xd405 = 0x11 ∧ read_byte mROM 0xd123 = 0x22 := by
  have h1 := charen_rom_window mROM 0xd405 rfl (by decide) (by decide)
  have h2 := charen_rom_window mROM 0xd123 rfl (by decide) (by decide)
  exact ⟨by simpa [mROM] using h1, by simpa [mROM] using h2⟩

/-- C4 counterexample: with the CHAREN slot on the I-O window, a read of an
address in the sound-register page is not forwarded to the sound
peripheral: it returns the RAM image byte, not the SID read_register
value. -/
theorem sid_read_not_dispatched_cex :
    read_byte mIO 0xD400 = 0x11
    ∧ mIO.sid_.read_register (0xD400 &&& 0xff) = 0x99
    ∧ read_byte mIO 0xD400 ≠ mIO.sid_.read_register (0xD400 &&& 0xff) :=
  ⟨by decide, by decide, by decide⟩

/-- C4 amended: when the CHAREN slot resolves to the I-O window, writes to
all four peripheral pages are forwarded to the write_register entry point
of the owning peripheral with the address masked to its local space, and
reads of the video and the two CIA pages are forwarded to read_register
likewise; reads of the sound page are NOT forwarded and return the RAM
image byte. -/
theorem io_dispatch_spec (m : Memory) (a v : Nat)
    (hio : m.banks_ kBankCharen = kIO) :
    (inVicPage a →
      write_byte m a v = { m with vic_ := m.vic_.write_register (a &&& 0x7f) v }
      ∧ read_byte m a = m.vic_.read_register (a &&& 0x7f))
    ∧ (inCIA1Page a →
      write_byte m a v = { m with cia1_ := m.cia1_.write_register (a &&& 0x0f) v }
      ∧ read_byte m a = m.cia1_.read_register (a &&& 0x0f))
    ∧ (inCIA2Page a →
      write_byte m a v = { m with cia2_ := m.cia2_.write_register (a &&& 0x0f) v }
      ∧ read_byte m a = m.cia2_.read_register (a &&& 0x0f))
    ∧ (inSIDPage a →
      write_byte m a v = { m with sid_ := m.sid_.write_register (a &&& 0xff) v }
      ∧ read_byte m a = read_byte_no_io m a) := by
  refine ⟨fun h => ?_, fun h => ?_, fun h => ?_, fun h => ?_⟩
  · simp only [inVicPage, kAddrVicFirstPage, kAddrVicLastPage] at h
    constructor
    · simp only [write_byte, kAddrZeroPage, kAddrVicFirstPage, kAddrVicLastPage]
      rw [if_neg (by omega), if_pos h, if_pos hio]
    · simp only [read_byte, kAddrVicFirstPage, kAddrVicLastPage]
      rw [if_pos h, if_pos hio]
  · simp only [inCIA1Page, kAddrCIA1Page] at h
    constructor
    · simp only [write_byte, kAddrZeroPage, kAddrVicFirstPage, kAddrVicLastPage, kAddrCIA1Page]
      rw [if_neg (by omega), if_neg (by omega), if_pos h, if_pos hio]
    · simp only [read_byte, kAddrVicFirstPage, kAddrVicLastPage, kAddrCIA1Page]
      rw [if_neg (by omega), if_pos h, if_pos hio]
  · simp only [inCIA2Page, kAddrCIA2Page] at h
    constructor
    · simp only [write_byte, kAddrZeroPage, kAddrVicFirstPage, kAddrVicLastPage, kAddrCIA1Page,
        kAddrCIA2Page]
      rw [if_neg (by omega), if_neg (by omega), if_neg (by omega), if_pos h, if_pos hio]
    · simp only [read_byte, kAddrVicFirstPage, kAddrVicLastPage, kAddrCIA1Page, kAddrCIA2Page]
      rw [if_neg (by omega), if_neg (by omega), if_pos h, if_pos hio]
  · simp only [inSIDPage, kAddrSIDPage] at h
    constructor
    · simp only [write_byte, kAddrZeroPage, kAddrVicFirstPage, kAddrVicLastPage, kAddrCIA1Page,
        kAddrCIA2Page, kAddrSIDPage]
      rw [if_neg (by omega), if_neg (by omega), if_neg (by omega), if_neg (by omega), if_pos h,
        if_pos hio]
    · simp only [read_byte, read_byte_no_io, kAddrVicFirstPage, kAddrVicLastPage, kAddrCIA1Page,
        kAddrCIA2Page, kAddrBasicFirstPage, kAddrBasicLastPage, kAddrKernalFirstPage,
        kAddrKernalLastPage]
      rw [if_neg (by omega), if_neg (by omega), if_neg (by omega), if_neg (by omega),
        if_neg (by omega)]

/-- Witness for C4 amended: a CIA1-page read and a SID-page write on a
concrete machine with the CHAREN slot on the I-O window. -/
theorem io_dispatch_spec_witness :
    read_byte mIO 0xdc05 = 0x99
    ∧ write_byte mIO 0xd401 7 = { mIO with sid_ := mIO.sid_.write_register 1 7 } := by
  have h1 := ((io_dispatch_spec mIO 0xdc05 7 (by decide)).2.1 (by decide)).2
  have h2 := ((io_dispatch_spec mIO 0xd401 7 (by decide)).2.2.2 (by decide)).1
  have hmask : (0xd401 : Nat) &&& 0xff = 1 := by decide
  constructor
  · rw [h1]; decide
  · rw [h2, hmask]

lemma write_byte_magic (m : Memory) :
    write_byte m 313 255 = patch_ram { m with mem_ram_ := updMem m.mem_ram_ 313 255 } := by
  have h1 : (313 : Nat) &&& 0xff00 = 0x0100 := by decide
  simp [write_byte, h1, kAddrZeroPage, kAddrVicFirstPage, kAddrVicLastPage, kAddrCIA1Page,
    kAddrCIA2Page, kAddrSIDPage]

/-- C5 counterexample: on concrete blobs whose payload is three bytes (load
address 0x0801, one program byte 0x42, so N = 1), the freshly constructed
machine does not contain the injected payload: address 0x0801 still holds
the power-on pattern and 0x2D/0x2E do not hold the little-endian
0x0801 + N = 0x0802.  The constructor never runs patch_ram. -/
theorem patch_not_at_construction_cex :
    read_byte_no_io MCex 0x2D = 0xFF
    ∧ read_byte_no_io MCex 0x2E = 0x00
    ∧ read_byte_no_io MCex 0x0801 = 0xFF
    ∧ read_byte_no_io MCex 0x2D ≠ (0x0801 + 1) % 256
    ∧ read_byte_no_io MCex 0x0801 ≠ 0x42 :=
  ⟨by decide, by decide, by decide, by decide, by decide⟩

/-- C5 amended: the payload injection happens when patch_ram runs, triggered
by a write of 255 to address 313 through write_byte (the development hook),
not at construction.  After that write the N = sz-2 payload bytes read back
at the encoded load address, and 0x2D/0x2E hold the little-endian encoding
of 0x0801 + N.  The side conditions say the payload is a genuine small
program image (at least the two header bytes, fits the address space, does
not overlay the pointer bytes themselves). -/
theorem patch_ram_payload_injection (m : Memory)
    (hsz2 : 2 ≤ m.roms.paku_prg_size)
    (hszlt : m.roms.paku_prg_size < kMemSize)
    (hptr : 0x0801 + (m.roms.paku_prg_size - 2) < kMemSize)
    (hnc : ∀ i, i < m.roms.paku_prg_size - 2 →
      (pakuLoadAddr m.roms + i) % kMemSize ≠ 0x2D
      ∧ (pakuLoadAddr m.roms + i) % kMemSize ≠ 0x2E) :
    (∀ i, i < m.roms.paku_prg_size - 2 →
      read_byte_no_io (write_byte m 313 255) ((pakuLoadAddr m.roms + i) % kMemSize)
        = (m.roms.paku_prg (2 + i)).val)
    ∧ read_byte_no_io (write_byte m 313 255) 0x2D
        = (0x0801 + (m.roms.paku_prg_size - 2)) % 256
    ∧ read_byte_no_io (write_byte m 313 255) 0x2E
        = (0x0801 + (m.roms.paku_prg_size - 2)) / 256 := by
  rw [write_byte_magic]
  simp only [patch_ram, read_byte_no_io]
  refine ⟨?_, ?_, ?_⟩
  · intro i hi
    rw [updMem_ne _ _ _ (hnc i hi).2, updMem_ne _ _ _ (hnc i hi).1,
      copyBytes_in _ _ _ _ (by simp only [kMemSize] at hszlt ⊢; omega) hi]
  · rw [updMem_ne _ _ _ (by decide), updMem_self]
    omega
  · rw [updMem_self]
    simp only [kMemSize] at hptr
    rw [Nat.shiftRight_eq_div_pow]
    have h1 : 0x801 + m.roms.paku_prg_size - 2 = 0x801 + (m.roms.paku_prg_size - 2) := by
      omega
    rw [h1]
    norm_num
    omega

/-- Witness for C5 amended, on the `rCex` blobs after the magic write. -/
theorem patch_ram_payload_injection_witness :
    read_byte_no_io (write_byte MCex 313 255) 0x0801 = 0x42
    ∧ read_byte_no_io (write_byte MCex 313 255) 0x2D = 0x02
    ∧ read_byte_no_io (write_byte MCex 313 255) 0x2E = 0x08 := by
  obtain ⟨h1, h2, h3⟩ :=
    patch_ram_payload_injection MCex (by decide) (by decide) (by decide) (by decide)
  refine ⟨?_, ?_, ?_⟩
  · have h0 := h1 0 (by decide)
    have e1 : (pakuLoadAddr MCex.roms + 0) % kMemSize = 0x0801 := by decide
    have e2 : (MCex.roms.paku_prg (2 + 0)).val = 0x42 := by decide
    rw [e1, e2] at h0
    exact h0
  · have e3 : (0x0801 + (MCex.roms.paku_prg_size - 2)) % 256 = 0x02 := by decide
    rw [e3] at h2
    exact h2
  · have e4 : (0x0801 + (MCex.roms.paku_prg_size - 2)) / 256 = 0x08 := by decide
    rw [e4] at h3
    exact h3

/-- C6: the VIC-side read adds the CIA2-provided base to the 14-bit
relative address (as uint16); if the result falls in 0x1000-0x1FFF or
0x9000-0x9FFF the returned byte is the character ROM blob byte at the
12-bit offset, otherwise it is the RAM image byte at that address - in
both cases regardless of the CPU-side bank latch, never a BASIC/KERNAL ROM
byte and never a peripheral register. -/
theorem vic_reads_char_rom_or_ram (r : Roms) (m : Memory) (hm : Reach r m) (addr : Nat) :
    vic_read_byte m addr =
      if (0x1000 ≤ (m.cia2_.vic_base_address + (addr &&& 0x3fff)) % kMemSize
            ∧ (m.cia2_.vic_base_address + (addr &&& 0x3fff)) % kMemSize < 0x2000)
        ∨ (0x9000 ≤ (m.cia2_.vic_base_address + (addr &&& 0x3fff)) % kMemSize
            ∧ (m.cia2_.vic_base_address + (addr &&& 0x3fff)) % kMemSize < 0xa000)
      then (r.charRomC64
        (((m.cia2_.vic_base_address + (addr &&& 0x3fff)) % kMemSize) &&& 0xfff)).val
      else m.mem_ram_ ((m.cia2_.vic_base_address + (addr &&& 0x3fff)) % kMemSize) := by
  obtain ⟨hr, hchar⟩ := memInv_reach hm
  simp only [vic_read_byte, read_byte_no_io]
  split_ifs with h
  · refine hchar _ ?_
    have hb := Nat.and_le_right
      (n := (m.cia2_.vic_base_address + (addr &&& 0x3fff)) % kMemSize) (m := 0xfff)
    omega
  · rfl

/-- Witness for C6: a window hit returning the (all-zero) character blob and
a miss returning the power-on RAM pattern, on the constructed machine. -/
theorem vic_reads_char_rom_or_ram_witness :
    vic_read_byte M0 0x1234 = 0 ∧ vic_read_byte M0 0x0123 = 0xFF := by
  have h1 := vic_reads_char_rom_or_ram sampleRoms M0 (Reach.init _ _ _ _) 0x1234
  have h2 := vic_reads_char_rom_or_ram sampleRoms M0 (Reach.init _ _ _ _) 0x0123
  exact ⟨by rw [h1]; decide, by rw [h2]; decide⟩

lemma ramGetChk_eq (f : Nat → Nat) (a : Nat) (ha : a < kMemSize) :
    ramGetChk f a = some (f a) := by
  simp [ramGetChk, ha]

lemma ramSetChk_eq (f : Nat → Nat) (a v : Nat) (ha : a < kMemSize) :
    ramSetChk f a v = some (updMem f a v) := by
  simp [ramSetChk, ha]

lemma copyBytesChk_eq (src : Nat → Fin 256) (srcOff dstBase n : Nat) (f : Nat → Nat) :
    copyBytesChk src srcOff dstBase n f = some (copyBytes src srcOff dstBase n f) := by
  induction n with
  | zero => rfl
  | succ k ih =>
    rw [copyBytesChk, copyBytes, ih]
    simp [ramSetChk_eq _ _ _ (Nat.mod_lt _ (by simp [kMemSize]))]

lemma writeSeqChk_eq (l : List (Nat × Nat)) (f : Nat → Nat)
    (hl : ∀ p ∈ l, p.1 < kMemSize) :
    writeSeqChk l f = some (writeSeq l f) := by
  induction l generalizing f with
  | nil => rfl
  | cons p rest ih =>
    rw [writeSeqChk, writeSeq]
    simp [ramSetChk_eq _ _ _ (hl p (List.mem_cons_self p rest))]
    exact ih _ fun q hq => hl q (List.mem_cons_of_mem p hq)

lemma patch_romsChk_eq (f : Nat → Nat) : patch_romsChk f = some (patch_roms f) :=
  writeSeqChk_eq _ f (by decide)

lemma romPassChk_eq (r : Roms) (f : Nat → Nat) : romPassChk r f = some (romPass r f) := by
  simp [romPassChk, romPass, copyBytesChk_eq, patch_romsChk_eq]

lemma write_byte_no_ioChk_eq (m : Memory) (a v : Nat) (ha : a < kMemSize) :
    write_byte_no_ioChk m a v = some (write_byte_no_io m a v) := by
  rw [write_byte_no_ioChk, ramSetChk_eq _ _ _ ha]
  rfl

lemma read_byte_no_ioChk_eq (m : Memory) (a : Nat) (ha : a < kMemSize) :
    read_byte_no_ioChk m a = some (read_byte_no_io m a) :=
  ramGetChk_eq _ _ ha

lemma setup_memory_banksChk_eq (m : Memory) (v : Nat) :
    setup_memory_banksChk m v = some (setup_memory_banks m v) := by
  rw [setup_memory_banksChk, romPassChk_eq]
  simp only [Option.bind_eq_bind, Option.some_bind]
  rw [write_byte_no_ioChk_eq _ _ _ (by simp [kAddrMemoryLayout, kMemSize])]
  rfl

lemma patch_ramChk_eq (m : Memory) : patch_ramChk m = some (patch_ram m) := by
  rw [patch_ramChk, copyBytesChk_eq]
  simp [patch_ram, ramSetChk, kMemSize, copyBytesChk_eq]

lemma write_byteChk_eq (m : Memory) (a v : Nat) (ha : a < kMemSize) :
    write_byteChk m a v = some (write_byte m a v) := by
  simp only [write_byteChk, write_byte]
  split_ifs <;>
    simp [setup_memory_banksChk_eq, write_byte_no_ioChk_eq _ _ _ ha, patch_ramChk_eq,
      write_byte_no_io]

lemma read_byteChk_eq (m : Memory) (a : Nat) (ha : a < kMemSize) :
    read_byteChk m a = some (read_byte m a) := by
  simp only [read_byteChk, read_byte]
  split_ifs <;> simp [ramGetChk, ha]

/-- C8: every runtime read and write entry point is total: on any 16-bit
address the bounds-checked interpretations (which guard every access into
the fixed 65536-byte RAM and ROM images) succeed, returning exactly the
unchecked semantics - no out-of-bounds access and no error branch is
reachable. -/
theorem memory_ops_total (m : Memory) (a v : Nat) (ha : a < kMemSize) :
    read_byteChk m a = some (read_byte m a)
    ∧ write_byteChk m a v = some (write_byte m a v)
    ∧ read_byte_no_ioChk m a = some (read_byte_no_io m a)
    ∧ write_byte_no_ioChk m a v = some (write_byte_no_io m a v)
    ∧ read_wordChk m a = some (read_word m a)
    ∧ write_wordChk m a v = some (write_word m a v)
    ∧ read_word_no_ioChk m a = some (read_word_no_io m a)
    ∧ write_word_no_ioChk m a v = some (write_word_no_io m a v) := by
  have ha1 : (a + 1) % kMemSize < kMemSize := Nat.mod_lt _ (by simp [kMemSize])
  refine ⟨read_byteChk_eq m a ha, write_byteChk_eq m a v ha, read_byte_no_ioChk_eq m a ha,
    write_byte_no_ioChk_eq m a v ha, ?_, ?_, ?_, ?_⟩
  · rw [read_wordChk, read_byteChk_eq m a ha]
    simp only [Option.bind_eq_bind, Option.some_bind]
    rw [read_byteChk_eq m _ ha1]
    rfl
  · rw [write_wordChk, write_byteChk_eq m a _ ha]
    simp only [Option.bind_eq_bind, Option.some_bind]
    rw [write_byteChk_eq _ _ _ ha1]
    rfl
  · rw [read_word_no_ioChk, read_byte_no_ioChk_eq m a ha]
    simp only [Option.bind_eq_bind, Option.some_bind]
    rw [read_byte_no_ioChk_eq m _ ha1]
    rfl
  · rw [write_word_no_ioChk, write_byte_no_ioChk_eq m a _ ha]
    simp only [Option.bind_eq_bind, Option.some_bind]
    rw [write_byte_no_ioChk_eq _ _ _ ha1]
    rfl

/-- Witness for C8 at a concrete address and value. -/
theorem memory_ops_total_witness :
    read_byteChk mTest 0x5000 = some 0x11
    ∧ read_wordChk mTest 0xFFFF = some (0x11 ||| 0x11 <<< 8) := by
  obtain ⟨h1, -, -, -, h5, -, -, -⟩ := memory_ops_total mTest 0x5000 0 (by decide)
  obtain ⟨-, -, -, -, h5b, -, -, -⟩ := memory_ops_total mTest 0xFFFF 0 (by decide)
  exact ⟨by rw [h1]; decide, by rw [h5b]; decide⟩
